import Mathlib

/-!
Verification development for the agent-platform workflow engine and tool
executor (`app/workflow_engine.py`, `app/tool_executor.py`, `app/models.py`).

The Python code is shallowly embedded: dictionaries become association lists
(`List (String × Value)`) preserving insertion order and overwrite-in-place
update semantics, JSON-like runtime values become the `Value` inductive,
exceptions become `Except Err`, and the side effects of one workflow run
(context mutation, execution log, inserted documents, tool invocations) are
threaded through an explicit `EngineState`.  External collaborators that
perform I/O (the LLM completion service, the per-type tool executors behind
the registry, the user-data collection insert) are abstracted as an `Env` of
behaviour functions, exactly at the call boundaries the source uses.
-/

namespace AgentSpec

/-- A JSON-like runtime value: the payloads stored in the workflow context,
tool parameters and tool results.  `other` stands for a Python object of any
type outside str/int/float/bool/list/dict/None (e.g. a function), which the
sanitizer rejects.  Numbers are modelled by `int`. -/
inductive Value where
  | null : Value
  | bool : Bool → Value
  | int : Int → Value
  | str : String → Value
  | list : List Value → Value
  | obj : List (String × Value) → Value
  | other : Value
deriving Repr

/-- Python `d[k]` lookup on a dict modelled as an insertion-ordered
association list: the first binding of the key wins. -/
def getKey (m : List (String × Value)) (k : String) : Option Value :=
  (m.find? (fun kv => kv.1 = k)).map (fun kv => kv.2)

/-- Python `d[k] = v` on a dict modelled as an association list: update in
place when the key is present, append otherwise (insertion order kept). -/
def setKey : List (String × Value) → String → Value → List (String × Value)
  | [], k, v => [(k, v)]
  | (k', v') :: rest, k, v =>
    if k' = k then (k', v) :: rest else (k', v') :: setKey rest k v

/-- Python `d.update(kvs)`: sequential `d[k] = v` assignments. -/
def updateAll (m : List (String × Value)) (kvs : List (String × Value)) :
    List (String × Value) :=
  kvs.foldl (fun acc kv => setKey acc kv.1 kv.2) m

/-- Characters removed by `re.sub(r'[<>"\';\\]', '', value)` in
`validate_and_sanitize_input` (tool_executor.py line 42). -/
def isDangerous (c : Char) : Bool :=
  c = '<' || c = '>' || c = '"' || c = '\'' || c = ';' || c = '\\'

/-- A word character, as matched by `[a-zA-Z0-9_]`. -/
def isWordChar (c : Char) : Bool :=
  ('a' ≤ c && c ≤ 'z') || ('A' ≤ c && c ≤ 'Z') || ('0' ≤ c && c ≤ '9') || c = '_'

/-- A tool-id character, as matched by `[a-zA-Z0-9_-]`. -/
def isToolIdChar (c : Char) : Bool :=
  isWordChar c || c = '-'

/-- Python `re.match(r'^[β]+$', s)` for a character class β: the whole string
consists of β-characters (nonempty), except that `$` also matches just before
one trailing newline. -/
def reMatchClassPlus (p : Char → Bool) (s : String) : Bool :=
  let cs := s.data
  (!cs.isEmpty && cs.all p) ||
    (cs.getLast? = some '\n' && !cs.dropLast.isEmpty && cs.dropLast.all p)

/-- Pattern `re.match(r'^[a-zA-Z0-9_]+$', key)`, the parameter-key check. -/
def reMatchKey (s : String) : Bool := reMatchClassPlus isWordChar s

/-- Pattern `re.match(r'^[a-zA-Z0-9_-]+$', toolId)`, the tool-id check. -/
def reMatchToolId (s : String) : Bool := reMatchClassPlus isToolIdChar s

/-- Python `s.startswith('$')`: the first character is the dollar sigil. -/
def startsWithDollar (s : String) : Bool :=
  s.data.head? = some '$'

/-- Python `s.strip('$')`: remove `$` characters from both ends. -/
def pyStripDollar (s : String) : String :=
  String.mk (((s.data.dropWhile (fun c => c = '$')).reverse.dropWhile
    (fun c => c = '$')).reverse)

/-- Whitespace stripped by Python `int(...)` before parsing. -/
def isPySpace (c : Char) : Bool :=
  c = ' ' || c = '\t' || c = '\n' || c = '\r' || c = '\x0b' || c = '\x0c'

/-- Digit run of a Python integer literal: digits with single underscores
allowed strictly between digits (`int("1_0") = 10`, `int("1__0")` raises). -/
def pyDigitsGo (acc : Nat) : List Char → Option Nat
  | [] => some acc
  | c :: cs =>
    if c.isDigit then pyDigitsGo (acc * 10 + (c.toNat - 48)) cs
    else if c = '_' then
      match cs with
      | d :: _ => if d.isDigit then pyDigitsGo acc cs else none
      | [] => none
    else none

/-- Parse a digit run that must start with a digit. -/
def pyDigits : List Char → Option Nat
  | [] => none
  | c :: cs => if c.isDigit then pyDigitsGo 0 (c :: cs) else none

/-- Python `int(s)`: strip whitespace, optional sign, digit run (with
underscores); `none` models the `ValueError` raised otherwise. -/
def pyInt (s : String) : Option Int :=
  let t := ((s.data.dropWhile isPySpace).reverse.dropWhile isPySpace).reverse
  match t with
  | '+' :: rest => (pyDigits rest).map Int.ofNat
  | '-' :: rest => (pyDigits rest).map (fun n => -(Int.ofNat n))
  | rest => (pyDigits rest).map Int.ofNat

/-- Hex digit for `\uXXXX` escapes. -/
def hexDigit (n : Nat) : Char :=
  if n < 10 then Char.ofNat (48 + n) else Char.ofNat (87 + n)

/-- Four-digit lowercase hex, as produced by `json.dumps` escapes. -/
def hex4 (n : Nat) : String :=
  String.mk [hexDigit (n / 4096 % 16), hexDigit (n / 256 % 16),
    hexDigit (n / 16 % 16), hexDigit (n % 16)]

/-- Escape one character the way `json.dumps` (default `ensure_ascii=True`)
does inside a string literal. -/
def jsonEscapeChar (c : Char) : String :=
  if c = '"' then "\\\""
  else if c = '\\' then "\\\\"
  else if c = '\n' then "\\n"
  else if c = '\t' then "\\t"
  else if c = '\r' then "\\r"
  else if c = '\x08' then "\\b"
  else if c = '\x0c' then "\\f"
  else if c.toNat < 32 then "\\u" ++ hex4 c.toNat
  else if c.toNat < 127 then String.mk [c]
  else if c.toNat < 65536 then "\\u" ++ hex4 c.toNat
  else
    let v := c.toNat - 65536
    "\\u" ++ hex4 (55296 + v / 1024) ++ "\\u" ++ hex4 (56320 + v % 1024)

/-- Serialization of a string by `json.dumps`. -/
def jsonQuote (s : String) : String :=
  "\"" ++ String.join (s.data.map jsonEscapeChar) ++ "\""

mutual

/-- Python `json.dumps(v)` with default separators; `none` models the
`TypeError` raised on a non-serializable object. -/
def jsonDumps : Value → Option String
  | .null => some "null"
  | .bool true => some "true"
  | .bool false => some "false"
  | .int n => some (toString n)
  | .str s => some (jsonQuote s)
  | .list xs => (jsonDumpsList xs).map (fun body => "[" ++ body ++ "]")
  | .obj kvs => (jsonDumpsObj kvs).map (fun body => "\x7b" ++ body ++ "\x7d")
  | .other => none

/-- Comma-joined dumps of the elements of a JSON array. -/
def jsonDumpsList : List Value → Option String
  | [] => some ""
  | [v] => jsonDumps v
  | v :: rest => do
    let hd ← jsonDumps v
    let tl ← jsonDumpsList rest
    pure (hd ++ ", " ++ tl)

/-- Comma-joined dumps of the entries of a JSON object. -/
def jsonDumpsObj : List (String × Value) → Option String
  | [] => some ""
  | [(k, v)] => (jsonDumps v).map (fun d => jsonQuote k ++ ": " ++ d)
  | (k, v) :: rest => do
    let d ← jsonDumps v
    let tl ← jsonDumpsObj rest
    pure (jsonQuote k ++ ": " ++ d ++ ", " ++ tl)

end

/-- Python `repr` of a string: single quotes unless the string contains a
single quote and no double quote (control-character escapes not modelled;
only reached from template rendering of `llm_prompt`/`send_response`). -/
def pyReprStr (s : String) : String :=
  if s.data.contains '\'' && !s.data.contains '"' then
    "\"" ++ s ++ "\""
  else
    "'" ++ String.join (s.data.map (fun c =>
      if c = '\\' then "\\\\" else if c = '\'' then "\\'"
      else String.mk [c])) ++ "'"

mutual

/-- Python `repr(v)` for the modelled value types. -/
def pyRepr : Value → String
  | .null => "None"
  | .bool true => "True"
  | .bool false => "False"
  | .int n => toString n
  | .str s => pyReprStr s
  | .list xs => "[" ++ pyReprList xs ++ "]"
  | .obj kvs => "\x7b" ++ pyReprObj kvs ++ "\x7d"
  | .other => "<object>"

/-- Comma-joined reprs of list elements. -/
def pyReprList : List Value → String
  | [] => ""
  | [v] => pyRepr v
  | v :: rest => pyRepr v ++ ", " ++ pyReprList rest

/-- Comma-joined reprs of dict entries. -/
def pyReprObj : List (String × Value) → String
  | [] => ""
  | [(k, v)] => pyReprStr k ++ ": " ++ pyRepr v
  | (k, v) :: rest => pyReprStr k ++ ": " ++ pyRepr v ++ ", " ++ pyReprObj rest

end

/-- Python `str(v)`: the string itself for strings, `repr`-style otherwise. -/
def pyStr (v : Value) : String :=
  match v with
  | .str s => s
  | v => pyRepr v

mutual

/-- Main scan of `pyFormat` over the template characters: plain
`\x7bname\x7d` placeholders are substituted from the context,
`\x7b\x7b`/`\x7d\x7d` are literal braces, a stray `\x7d` raises
`ValueError` (format specs are not modelled; the templates the engine
renders use plain placeholders). -/
def pyFormatGo (ctx : List (String × Value)) : List Char → Option (List Char)
  | [] => some []
  | '\x7b' :: '\x7b' :: rest => (pyFormatGo ctx rest).map (fun t => '\x7b' :: t)
  | '\x7d' :: '\x7d' :: rest => (pyFormatGo ctx rest).map (fun t => '\x7d' :: t)
  | '\x7d' :: _ => none
  | '\x7b' :: rest => pyFormatName ctx [] rest
  | c :: rest => (pyFormatGo ctx rest).map (fun t => c :: t)

/-- Scan of a `\x7bname\x7d` placeholder: accumulate the name until the
closing brace, then substitute the context variable. -/
def pyFormatName (ctx : List (String × Value)) (acc : List Char) :
    List Char → Option (List Char)
  | [] => none
  | '\x7d' :: rest =>
    match getKey ctx (String.mk acc.reverse) with
    | some v => (pyFormatGo ctx rest).map (fun t => (pyStr v).data ++ t)
    | none => none
  | c :: rest => pyFormatName ctx (c :: acc) rest

end

/-- Python `template.format(**context)`; `none` models the exception
raised on a missing key or malformed template. -/
def pyFormat (s : String) (ctx : List (String × Value)) : Option String :=
  (pyFormatGo ctx s.data).map String.mk

/-- Authentication block of a tool (`models.ToolAuth`). -/
structure ToolAuth where
  type : String
  key : String

/-- A tool definition (`models.Tool`). -/
structure Tool where
  toolId : String
  type : String
  name : String
  description : String := ""
  endpoint : Option String := none
  url : Option String := none
  auth : Option ToolAuth := none

/-- A workflow step (`models.WorkflowNode`); optional fields default as the
pydantic model does.  `params` values are arbitrary runtime values, as in the
source where `params: Optional[Dict[str, Any]]`. -/
structure WorkflowNode where
  nodeId : String
  type : String
  prompt : Option String := none
  output_variable : Option String := none
  action : Option String := none
  collection : Option String := none
  data : Option String := none
  message : Option String := none
  toolId : Option String := none
  params : Option (List (String × Value)) := none
  condition : Option String := none
  on_failure : Option String := none
  continue_on_error : Option Bool := some false
  max_retries : Option Int := some 3
  retry_delay : Option Int := some 1
  timeout : Option Int := some 30
  validate_input : Option Bool := some true
  sanitize_output : Option Bool := some true

/-- A workflow definition (`models.Workflow`). -/
structure Workflow where
  workflowId : String
  description : String := ""
  trigger : String := ""
  nodes : List WorkflowNode

/-- The slice of `models.AgentModel` the engine and dispatcher read:
`tools`, `workflows` and `systemPrompt` (the `llmConfig` is only forwarded
to the abstracted LLM collaborator). -/
structure AgentModel where
  agentId : String
  systemPrompt : String := ""
  tools : List Tool := []
  workflows : List Workflow := []

/-- The exception taxonomy of the two modules: the three tool errors of
`tool_executor.py`, the two workflow errors of `workflow_engine.py`, and
`generic` for any other Python exception (`KeyError` from template
rendering, collaborator failures, ...). -/
inductive Err where
  | toolValidation : Err
  | toolSecurity : Err
  | toolExecution : Err
  | workflowStep : String → Err
  | workflowExecution : Err
  | generic : Err
deriving DecidableEq, Repr

/-- Accumulator loop of `validate_and_sanitize_input` (tool_executor.py
lines 30-59): per key a format check, per value a type-directed
sanitization, results assigned into the `sanitized_params` dict. -/
def sanitizeGo (acc : List (String × Value)) :
    List (String × Value) → Except Err (List (String × Value))
  | [] => .ok acc
  | (k, v) :: rest =>
    if reMatchKey k then
      match v with
      | .str s =>
        let t := s.data.filter (fun c => !(isDangerous c))
        let t' := if t.length > 1000 then t.take 1000 else t
        sanitizeGo (setKey acc k (.str (String.mk t'))) rest
      | .int n => sanitizeGo (setKey acc k (.int n)) rest
      | .bool b => sanitizeGo (setKey acc k (.bool b)) rest
      | .list xs =>
        match jsonDumps (.list xs) with
        | none => .error .toolValidation
        | some j =>
          if j.length > 5000 then .error .toolValidation
          else sanitizeGo (setKey acc k (.list xs)) rest
      | .obj kvs =>
        match jsonDumps (.obj kvs) with
        | none => .error .toolValidation
        | some j =>
          if j.length > 5000 then .error .toolValidation
          else sanitizeGo (setKey acc k (.obj kvs)) rest
      | .null => .error .toolValidation
      | .other => .error .toolValidation
    else .error .toolValidation

/-- Embedding of `validate_and_sanitize_input(params, tool)` (the `tool`
argument is unused by the source function's body).  String values have the
characters `<>"';\` removed and are truncated to 1000 characters; ints,
floats and booleans pass; lists and dicts must serialize to at most 5000
JSON characters and are kept structured; `None` and any other type raise
`ToolValidationError`, as does a key not matching `^[a-zA-Z0-9_]+$`. -/
def validate_and_sanitize_input (params : List (String × Value)) :
    Except Err (List (String × Value)) :=
  sanitizeGo [] params

/-- Module-level `ALLOWED_TOOL_TYPES` (tool_executor.py line 251).  Note:
`EMAIL` and `SCHEDULING` are registered in `TOOL_REGISTRY` further down the
module but are never added to this set. -/
def ALLOWED_TOOL_TYPES : List String := ["API", "RSS", "DATABASE", "TELEGRAM"]

/-- The keys of `TOOL_REGISTRY` after all module-level registrations. -/
def TOOL_REGISTRY_TYPES : List String :=
  ["API", "RSS", "DATABASE", "TELEGRAM", "SCHEDULING", "EMAIL"]

/-- Outcome of running a registered per-type executor coroutine: a returned
value, a raised exception, or exceeding the 60-second `asyncio.wait_for`
window.  The executors perform network and database I/O, so their behaviour
is an environment parameter of the embedding. -/
inductive ExecOutcome where
  | ret : Value → ExecOutcome
  | raise : Err → ExecOutcome
  | timeout : ExecOutcome

/-- Outer exception handling of `execute_tool`: the three tool errors pass
through, anything else is wrapped into `ToolExecutionError`. -/
def coerceToolError (e : Err) : Err :=
  match e with
  | .toolValidation => .toolValidation
  | .toolSecurity => .toolSecurity
  | .toolExecution => .toolExecution
  | _ => .toolExecution

/-- Result wrapping of `execute_tool`: a non-dict executor result is wrapped
under the `result` key. -/
def wrapResult (v : Value) : List (String × Value) :=
  match v with
  | .obj kvs => kvs
  | v => [("result", v)]

/-- The `_tool_metadata` value attached by `execute_tool` on success. -/
def toolMeta (tool : Tool) (now : Int) : Value :=
  .obj [("tool_id", .str tool.toolId), ("tool_type", .str tool.type),
    ("execution_time", .int now)]

/-- Embedding of `execute_tool(tool, params)` (tool_executor.py lines
253-318).  `execb` is the behaviour of the registered executor coroutine on
the prepared parameter dict, `now` the event-loop clock reading used for the
metadata.  Checks in source order: allow-list, `toolId`/`name` present,
`toolId` format, registry lookup, then the executor under the timeout. -/
def execute_tool (execb : List (String × Value) → ExecOutcome) (tool : Tool)
    (params : Option (List (String × Value))) (now : Int) :
    Except Err (List (String × Value)) :=
  if tool.type ∉ ALLOWED_TOOL_TYPES then .error .toolSecurity
  else if tool.toolId = "" then .error .toolValidation
  else if tool.name = "" then .error .toolValidation
  else if ¬ reMatchToolId tool.toolId then .error .toolValidation
  else
    let p := params.getD []
    if tool.type ∉ TOOL_REGISTRY_TYPES then .error .toolExecution
    else
      match execb p with
      | .timeout => .error .toolExecution
      | .raise e => .error (coerceToolError e)
      | .ret v =>
        .ok (setKey (wrapResult v) "_tool_metadata" (toolMeta tool now))

/-- One `_log_step` record; the free-text `details` map and the float
timestamp of the source entry are logging metadata and are not modelled. -/
structure LogEntry where
  node_id : String
  step_type : String
  status : String
deriving DecidableEq, Repr

/-- The mutable state of one `WorkflowExecutor` run: the shared context, the
execution log and failed-step list, plus the observable effects on the two
external collaborators — the documents inserted into the agent's user-data
collection and the parameter dicts of every `execute_tool` invocation. -/
structure EngineState where
  context : List (String × Value)
  executionLog : List LogEntry
  failedSteps : List LogEntry
  inserted : List Value
  toolCallLog : List (List (String × Value))
deriving Repr

/-- Behaviour of the engine's external collaborators: the LLM completion
service (per retry attempt, system prompt, rendered message), the registered
tool executors (per retry attempt and tool), the user-data insert, and the
event-loop clock. -/
structure Env where
  llm : Nat → String → String → Except Err Value
  toolRun : Nat → Tool → List (String × Value) → ExecOutcome
  insertDoc : Value → Except Err Unit
  now : Int

/-- Append a log entry as `_log_step` does: every entry goes to the
execution log, failed entries are duplicated into `failed_steps`. -/
def logStep (node : WorkflowNode) (status : String) (st : EngineState) :
    EngineState :=
  let entry : LogEntry := ⟨node.nodeId, node.type, status⟩
  if status = "failed" then
    { st with executionLog := st.executionLog ++ [entry],
              failedSteps := st.failedSteps ++ [entry] }
  else
    { st with executionLog := st.executionLog ++ [entry] }

/-- The log entry of a failed attempt at a node. -/
def failEntry (node : WorkflowNode) : LogEntry :=
  ⟨node.nodeId, node.type, "failed"⟩

/-- Parameter preparation of `_execute_tool_call_node` (workflow_engine.py
lines 172-182): values that are strings starting with `$` are replaced by
the named context variable, with the key omitted (warning logged) when the
variable is absent; other values pass through; assignments build a dict. -/
def resolveParamsGo (ctx : List (String × Value))
    (acc : List (String × Value)) :
    List (String × Value) → List (String × Value)
  | [] => acc
  | (k, v) :: rest =>
    match v with
    | .str s =>
      if startsWithDollar s then
        match getKey ctx (pyStripDollar s) with
        | some x => resolveParamsGo ctx (setKey acc k x) rest
        | none => resolveParamsGo ctx acc rest
      else resolveParamsGo ctx (setKey acc k (.str s)) rest
    | v => resolveParamsGo ctx (setKey acc k v) rest

/-- The resolved parameter dict a `tool_call` step passes to
`execute_tool`. -/
def resolveParams (ctx : List (String × Value))
    (ps : List (String × Value)) : List (String × Value) :=
  resolveParamsGo ctx [] ps

/-- One attempt of the body of `_execute_llm_node`: render the prompt
template against the context (a missing placeholder key raises), call the
LLM collaborator, store the response under `output_variable` if set. -/
def llmAttempt (env : Env) (ag : AgentModel) (node : WorkflowNode)
    (st : EngineState) (attempt : Nat) : Except Err Unit × EngineState :=
  match pyFormat (node.prompt.getD "") st.context with
  | none => (.error .generic, st)
  | some rendered =>
    match env.llm attempt ag.systemPrompt rendered with
    | .error e => (.error e, st)
    | .ok resp =>
      match node.output_variable with
      | some ov =>
        if ov = "" then (.ok (), st)
        else (.ok (), { st with context := setKey st.context ov resp })
      | none => (.ok (), st)

/-- One attempt of the body of `_execute_tool_call_node`: require a
`toolId`, resolve the tool from the agent's tool list, resolve the params
from the context, invoke `execute_tool` (recorded in `toolCallLog`), store
the result under `output_variable` if set. -/
def toolCallAttempt (env : Env) (ag : AgentModel) (node : WorkflowNode)
    (st : EngineState) (attempt : Nat) : Except Err Unit × EngineState :=
  match node.toolId with
  | none => (.error (.workflowStep node.nodeId), st)
  | some tid =>
    if tid = "" then (.error (.workflowStep node.nodeId), st)
    else
      match ag.tools.find? (fun t => t.toolId = tid) with
      | none => (.error (.workflowStep node.nodeId), st)
      | some tool =>
        let rp := resolveParams st.context (node.params.getD [])
        let st1 := { st with toolCallLog := st.toolCallLog ++ [rp] }
        match execute_tool (env.toolRun attempt tool) tool (some rp)
            env.now with
        | .error e => (.error e, st1)
        | .ok r =>
          match node.output_variable with
          | some ov =>
            if ov = "" then (.ok (), st1)
            else (.ok (), { st1 with context := setKey st1.context ov (.obj r) })
          | none => (.ok (), st1)

/-- The `retry_on_failure` decorator (workflow_engine.py lines 24-42):
up to `fuel` attempts of the wrapped body, state effects of failed attempts
persisting, the last exception re-raised when all attempts fail.  The
decorator is applied with its definition-time defaults `max_retries=3`,
`delay=1.0`; the backoff sleeps have no observable effect in the model. -/
def retryFrom (body : Nat → EngineState → Except Err Unit × EngineState)
    (attempt : Nat) : Nat → EngineState → Except Err Unit × EngineState
  | 0, st => (.error .generic, st)
  | fuel + 1, st =>
    match body attempt st with
    | (.ok u, st') => (.ok u, st')
    | (.error e, st') =>
      if fuel = 0 then (.error e, st')
      else retryFrom body (attempt + 1) fuel st'

/-- The decorated `_execute_llm_node` (retry with `max_retries=3`). -/
def execute_llm_node (env : Env) (ag : AgentModel) (node : WorkflowNode)
    (st : EngineState) : Except Err Unit × EngineState :=
  retryFrom (fun i s => llmAttempt env ag node s i) 0 3 st

/-- The decorated `_execute_tool_call_node` (retry with `max_retries=3`). -/
def execute_tool_call_node (env : Env) (ag : AgentModel)
    (node : WorkflowNode) (st : EngineState) :
    Except Err Unit × EngineState :=
  retryFrom (fun i s => toolCallAttempt env ag node s i) 0 3 st

/-- Body of `_execute_data_store_node`: resolve `data` (a `$variable`
reference fails the step when the variable is absent; a literal is stored as
a string; `None` stays `None`), then dispatch on `action` — `append` inserts
the resolved document into the agent's user-data collection, `update` and
any other action raise `WorkflowStepError`. -/
def dataStoreNode (env : Env) (node : WorkflowNode) (st : EngineState) :
    Except Err Unit × EngineState :=
  let resolved : Except Err Value :=
    match node.data with
    | some d =>
      if d ≠ "" ∧ startsWithDollar d then
        match getKey st.context (pyStripDollar d) with
        | none => .error (.workflowStep node.nodeId)
        | some x => .ok x
      else .ok (.str d)
    | none => .ok .null
  match resolved with
  | .error e => (.error e, st)
  | .ok doc =>
    match node.action with
    | some "append" =>
      match env.insertDoc doc with
      | .ok _ => (.ok (), { st with inserted := st.inserted ++ [doc] })
      | .error e => (.error e, st)
    | _ => (.error (.workflowStep node.nodeId), st)

/-- Body of `_execute_send_response_node`: resolve `message` as a
`$variable` reference (absent variable fails the step) or render it as a
template, then store the result under the reserved `_last_response` key. -/
def sendResponseNode (node : WorkflowNode) (st : EngineState) :
    Except Err Unit × EngineState :=
  let message := node.message.getD ""
  if startsWithDollar message then
    match getKey st.context (pyStripDollar message) with
    | none => (.error (.workflowStep node.nodeId), st)
    | some v =>
      (.ok (), { st with context := setKey st.context "_last_response" v })
  else
    match pyFormat message st.context with
    | none => (.error .generic, st)
    | some r =>
      (.ok (), { st with context := setKey st.context "_last_response" (.str r) })

/-- Body of `_execute_conditional_node`: a missing or empty condition raises
`WorkflowStepError`; otherwise evaluation is stubbed in the source and the
node returns `True` (continue). -/
def condNode (node : WorkflowNode) (st : EngineState) :
    Except Err Bool × EngineState :=
  match node.condition with
  | none => (.error (.workflowStep node.nodeId), st)
  | some c =>
    if c = "" then (.error (.workflowStep node.nodeId), st)
    else (.ok true, st)

/-- The type dispatch inside `execute_node`'s `try` block.  Node types other
than `conditional_logic` contribute `true` (the caller logs success and
returns `True`); an unsupported type raises `WorkflowStepError`. -/
def execNodeDispatch (env : Env) (ag : AgentModel) (node : WorkflowNode)
    (st : EngineState) : Except Err Bool × EngineState :=
  if node.type = "llm_prompt" then
    let (r, st') := execute_llm_node env ag node st
    (r.map (fun _ => true), st')
  else if node.type = "data_store" then
    let (r, st') := dataStoreNode env node st
    (r.map (fun _ => true), st')
  else if node.type = "tool_call" then
    let (r, st') := execute_tool_call_node env ag node st
    (r.map (fun _ => true), st')
  else if node.type = "send_response" then
    let (r, st') := sendResponseNode node st
    (r.map (fun _ => true), st')
  else if node.type = "conditional_logic" then
    condNode node st
  else
    (.error (.workflowStep node.nodeId), st)

/-- The boolean result of `_handle_failure_action` for a non-empty
`on_failure` string: `continue` means keep going, `stop`, `retry` and any
unknown value mean halt the run loop gracefully. -/
def handle_failure_action (a : String) : Bool :=
  if a = "continue" then true else false

/-- Embedding of `WorkflowExecutor.execute_node` (workflow_engine.py lines
68-106): run the type dispatch; on success log a success entry and return
`True` — except for `conditional_logic`, whose boolean is returned without a
success log entry; on any exception log a failed entry, then consult
`on_failure` (a missing or empty value re-raises as `WorkflowStepError`,
otherwise `_handle_failure_action` decides the boolean). -/
def execute_node (env : Env) (ag : AgentModel) (node : WorkflowNode)
    (st : EngineState) : Except Err Bool × EngineState :=
  match execNodeDispatch env ag node st with
  | (.ok b, st') =>
    if node.type = "conditional_logic" then (.ok b, st')
    else (.ok true, logStep node "success" st')
  | (.error _, st') =>
    let st'' := logStep node "failed" st'
    match node.on_failure with
    | some a =>
      if a = "" then (.error (.workflowStep node.nodeId), st'')
      else (.ok (handle_failure_action a), st'')
    | none => (.error (.workflowStep node.nodeId), st'')

/-- The step loop of `WorkflowExecutor.run` (lines 280-292): a `False`
result breaks out gracefully; a `WorkflowStepError` aborts the run with
`WorkflowExecutionError` unless the node's `continue_on_error` is true. -/
def runLoop (env : Env) (ag : AgentModel) :
    List WorkflowNode → EngineState → Except Err Unit × EngineState
  | [], st => (.ok (), st)
  | node :: rest, st =>
    match execute_node env ag node st with
    | (.ok true, st') => runLoop env ag rest st'
    | (.ok false, st') => (.ok (), st')
    | (.error _, st') =>
      if node.continue_on_error = some true then runLoop env ag rest st'
      else (.error .workflowExecution, st')

/-- Comparison used to sort workflow nodes: ascending `int(nodeId)`. -/
def nodeKey (n : WorkflowNode) : Int :=
  (pyInt n.nodeId).getD 0

/-- The node order relation of the engine's `sorted(..., key=int)`. -/
def nodeLe (a b : WorkflowNode) : Prop :=
  nodeKey a ≤ nodeKey b

instance : DecidableRel nodeLe := fun a b => Int.decLe _ _

instance : IsTotal WorkflowNode nodeLe := ⟨fun a b => Int.le_total _ _⟩

instance : IsTrans WorkflowNode nodeLe := ⟨fun _ _ _ => Int.le_trans⟩

/-- Python `sorted(nodes, key=lambda n: int(n.nodeId))`: a stable ascending
sort by the integer value of `nodeId`. -/
def sortNodes (ns : List WorkflowNode) : List WorkflowNode :=
  ns.insertionSort nodeLe

/-- The summary dict assigned to `context['_execution_summary']` after the
loop (the log entries are rendered without the unmodelled metadata). -/
def summaryValue (wid : String) (total : Nat) (st : EngineState) : Value :=
  .obj [("workflow_id", .str wid),
    ("total_steps", .int total),
    ("failed_steps", .int st.failedSteps.length),
    ("execution_log", .list (st.executionLog.map (fun e =>
      .obj [("node_id", .str e.node_id), ("step_type", .str e.step_type),
        ("status", .str e.status)])))]

/-- The state a run starts from: empty logs and a context seeded by
`self.context.update(initial_context)`. -/
def initState (ictx : List (String × Value)) : EngineState :=
  ⟨updateAll [] ictx, [], [], [], []⟩

/-- Embedding of `WorkflowExecutor.run` (workflow_engine.py lines 264-308):
seed the context, resolve the workflow by id (unknown id fails), sort the
nodes by `int(nodeId)` (a non-numeric `nodeId` raises inside `sorted` before
any step executes), run the loop, then attach `_execution_summary` and
return the context.  Any exception escaping the body is re-wrapped as
`WorkflowExecutionError`; the engine state is returned alongside for the
observability the source exposes via `get_execution_summary`. -/
def run (env : Env) (ag : AgentModel) (wid : String)
    (ictx : List (String × Value)) :
    Except Err (List (String × Value)) × EngineState :=
  let st0 := initState ictx
  match ag.workflows.find? (fun w => w.workflowId = wid) with
  | none => (.error .workflowExecution, st0)
  | some wf =>
    if wf.nodes.all (fun n => (pyInt n.nodeId).isSome) then
      match runLoop env ag (sortNodes wf.nodes) st0 with
      | (.ok _, st) =>
        let ctx' := setKey st.context "_execution_summary"
          (summaryValue wid (sortNodes wf.nodes).length st)
        (.ok ctx', { st with context := ctx' })
      | (.error _, st) => (.error .workflowExecution, st)
    else (.error .workflowExecution, st0)

/-! ## Association-list lemmas -/

/-- Updating a key makes it readable. -/
theorem getKey_setKey_self (m : List (String × Value)) (k : String)
    (v : Value) : getKey (setKey m k v) k = some v := by
  induction m with
  | nil => simp [setKey, getKey, List.find?]
  | cons kv rest ih =>
    obtain ⟨k', v'⟩ := kv
    by_cases h : k' = k
    · subst h
      simp [setKey, getKey, List.find?]
    · simpa [setKey, getKey, List.find?, h] using ih

/-- Updating one key leaves the other keys unchanged. -/
theorem getKey_setKey_ne (m : List (String × Value)) (k k' : String)
    (v : Value) (h : k' ≠ k) : getKey (setKey m k v) k' = getKey m k' := by
  induction m with
  | nil => simp [setKey, getKey, List.find?, Ne.symm h]
  | cons kv rest ih =>
    obtain ⟨k0, v0⟩ := kv
    by_cases h0 : k0 = k
    · subst h0
      simp [setKey, getKey, List.find?, Ne.symm h]
    · by_cases h1 : k0 = k'
      · subst h1
        simp [setKey, getKey, List.find?, h0]
      · simpa [setKey, getKey, List.find?, h0, h1] using ih

/-- Assigning a fresh key appends the binding. -/
theorem setKey_of_not_mem (m : List (String × Value)) (k : String)
    (v : Value) (h : k ∉ m.map Prod.fst) : setKey m k v = m ++ [(k, v)] := by
  induction m with
  | nil => rfl
  | cons kv rest ih =>
    obtain ⟨k', v'⟩ := kv
    simp only [List.map_cons, List.mem_cons] at h
    push_neg at h
    simp [setKey, Ne.symm h.1, ih h.2]

/-! ## C8: the sanitizer on already-clean input -/

/-- A value already clean in the sense of the claim: strings free of the
characters `<>"';\` and at most 1000 characters long; ints and booleans
always; lists and dicts whose JSON serialization is at most 5000 characters;
nothing else (the sanitizer rejects `None` and any other type). -/
def cleanValue : Value → Bool
  | .str s => s.data.all (fun c => !(isDangerous c)) && decide (s.data.length ≤ 1000)
  | .int _ => true
  | .bool _ => true
  | .list xs =>
    match jsonDumps (.list xs) with
    | some j => decide (j.length ≤ 5000)
    | none => false
  | .obj kvs =>
    match jsonDumps (.obj kvs) with
    | some j => decide (j.length ≤ 5000)
    | none => false
  | .null => false
  | .other => false

/-- A clean parameter entry: a key matching `^[a-zA-Z0-9_]+$` with a clean
value. -/
def cleanParam (kv : String × Value) : Bool :=
  reMatchKey kv.1 && cleanValue kv.2

/-- The sanitizer loop is the identity (up to appending onto the
accumulator) on clean entries with fresh, pairwise-distinct keys. -/
theorem sanitizeGo_clean :
    ∀ (ps acc : List (String × Value)),
      ps.all cleanParam = true → (ps.map Prod.fst).Nodup →
      (∀ x ∈ ps.map Prod.fst, x ∉ acc.map Prod.fst) →
      sanitizeGo acc ps = .ok (acc ++ ps) := by
  intro ps
  induction ps with
  | nil => intro acc _ _ _; simp [sanitizeGo]
  | cons kv rest ih =>
    intro acc hall hnd hdisj
    obtain ⟨k, v⟩ := kv
    simp only [List.all_cons, Bool.and_eq_true] at hall
    obtain ⟨hhead, hrest⟩ := hall
    simp only [cleanParam, Bool.and_eq_true] at hhead
    obtain ⟨hkey, hval⟩ := hhead
    simp only [List.map_cons, List.nodup_cons] at hnd
    obtain ⟨hknr, hndr⟩ := hnd
    have hkacc : k ∉ acc.map Prod.fst := hdisj k (by simp)
    have hrec : sanitizeGo (setKey acc k v) rest = .ok (acc ++ (k, v) :: rest) := by
      rw [setKey_of_not_mem acc k v hkacc]
      have hd' : ∀ x ∈ rest.map Prod.fst, x ∉ (acc ++ [(k, v)]).map Prod.fst := by
        intro x hx
        simp only [List.map_append, List.mem_append, List.map_cons,
          List.map_nil, List.mem_singleton, List.not_mem_nil]
        push_neg
        refine ⟨fun hc => (hdisj x (by simp [hx])) hc, ?_⟩
        rintro ⟨rfl⟩
        exact hknr hx
      simpa using ih (acc ++ [(k, v)]) hrest hndr hd'
    cases v with
    | str s =>
      simp only [cleanValue, Bool.and_eq_true, decide_eq_true_eq] at hval
      obtain ⟨hch, hlen⟩ := hval
      have hfil : s.data.filter (fun c => !(isDangerous c)) = s.data :=
        List.filter_eq_self.mpr (fun a ha => (List.all_eq_true.mp hch) a ha)
      show (if reMatchKey k then
          (let t := s.data.filter (fun c => !(isDangerous c));
            let t' := if t.length > 1000 then t.take 1000 else t;
            sanitizeGo (setKey acc k (.str (String.mk t'))) rest)
          else .error .toolValidation) = _
      rw [if_pos hkey]
      simp only [hfil]
      rw [if_neg (by omega)]
      exact hrec
    | int n =>
      show (if reMatchKey k then sanitizeGo (setKey acc k (.int n)) rest
          else .error .toolValidation) = _
      rw [if_pos hkey]
      exact hrec
    | bool b =>
      show (if reMatchKey k then sanitizeGo (setKey acc k (.bool b)) rest
          else .error .toolValidation) = _
      rw [if_pos hkey]
      exact hrec
    | list xs =>
      simp only [sanitizeGo]
      rw [if_pos hkey]
      cases hj : jsonDumps (.list xs) with
      | none => simp [cleanValue, hj] at hval
      | some j =>
        have hlen : j.length ≤ 5000 := by
          have hd : decide (j.length ≤ 5000) = true := by
            simpa [cleanValue, hj] using hval
          exact of_decide_eq_true hd
        simp only [hj]
        rw [if_neg (Nat.not_lt.mpr hlen)]
        exact hrec
    | obj kvs =>
      simp only [sanitizeGo]
      rw [if_pos hkey]
      cases hj : jsonDumps (.obj kvs) with
      | none => simp [cleanValue, hj] at hval
      | some j =>
        have hlen : j.length ≤ 5000 := by
          have hd : decide (j.length ≤ 5000) = true := by
            simpa [cleanValue, hj] using hval
          exact of_decide_eq_true hd
        simp only [hj]
        rw [if_neg (Nat.not_lt.mpr hlen)]
        exact hrec
    | null => simp [cleanValue] at hval
    | other => simp [cleanValue] at hval

/-- C8: the parameter sanitizer is idempotent on already-clean input — for
every parameter map whose keys match `^[A-Za-z0-9_]+$` and whose values are
clean (strings without `<>"';\` of at most 1000 characters, numbers and
booleans, lists/dicts serializing to at most 5000 JSON characters, kept
structured), `validate_and_sanitize_input` returns the map unchanged. -/
theorem c8_sanitizer_idempotent (params : List (String × Value))
    (hclean : params.all cleanParam = true)
    (hnd : (params.map Prod.fst).Nodup) :
    validate_and_sanitize_input params = .ok params := by
  have := sanitizeGo_clean params [] hclean hnd (by simp)
  simpa [validate_and_sanitize_input] using this

/-- Witness for C8 at a concrete clean parameter map containing a string, a
number, a boolean and a structured dict value. -/
theorem c8_sanitizer_idempotent_witness :
    validate_and_sanitize_input
      [("q", .str "hello world"), ("n", .int 3), ("flag", .bool true),
        ("cfg", .obj [("a", .int 1)])]
      = .ok [("q", .str "hello world"), ("n", .int 3), ("flag", .bool true),
        ("cfg", .obj [("a", .int 1)])] := by
  apply c8_sanitizer_idempotent
  · simp only [List.all_cons, List.all_nil, cleanParam, cleanValue,
      jsonDumps, jsonDumpsObj]
    decide
  · decide

/-! ## C9: successful dispatch wraps the result and attaches metadata -/

/-- Whether a value is a Python dict in the embedding. -/
def isObjValue : Value → Bool
  | .obj _ => true
  | _ => false

/-- C9: whenever `execute_tool` succeeds, the returned result is a key-value
map containing a `_tool_metadata` entry holding the tool's id, the tool's
type and the execution time; the result is exactly the executor's returned
value — wrapped under the `result` key when it is not a map — with the
metadata attached, and a bare (non-map) executor result stays readable under
the `result` key. -/
theorem c9_result_metadata (execb : List (String × Value) → ExecOutcome)
    (tool : Tool) (params : Option (List (String × Value))) (now : Int)
    (r : List (String × Value))
    (h : execute_tool execb tool params now = .ok r) :
    getKey r "_tool_metadata" = some (toolMeta tool now) ∧
    (∀ v, execb (params.getD []) = .ret v →
      r = setKey (wrapResult v) "_tool_metadata" (toolMeta tool now)) ∧
    (∀ v, execb (params.getD []) = .ret v → isObjValue v = false →
      getKey r "result" = some v) := by
  unfold execute_tool at h
  split at h
  · exact absurd h (by simp)
  · split at h
    · exact absurd h (by simp)
    · split at h
      · exact absurd h (by simp)
      · split at h
        · exact absurd h (by simp)
        · split at h
          · exact absurd h (by simp)
          · revert h
            cases hx : execb (params.getD []) with
            | timeout => intro h; simp only [hx] at h; exact Except.noConfusion h
            | raise e => intro h; simp only [hx] at h; exact Except.noConfusion h
            | ret v0 =>
              intro h
              simp only [hx] at h
              have hr : r = setKey (wrapResult v0) "_tool_metadata"
                  (toolMeta tool now) := by
                cases h
                rfl
              subst hr
              refine ⟨getKey_setKey_self _ _ _, ?_, ?_⟩
              · intro v hv
                cases hv
                rfl
              · intro v hv hb
                cases hv
                rw [getKey_setKey_ne _ _ _ _ (by decide)]
                cases v0 <;> simp_all [wrapResult, isObjValue, getKey, List.find?]

/-- Witness for C9: a bare integer result from an API-typed tool is wrapped
under `result` and carries the metadata entry. -/
theorem c9_result_metadata_witness :
    getKey [("result", Value.int 7),
        ("_tool_metadata", toolMeta ⟨"t1", "API", "Tool", "", none, none, none⟩ 42)]
      "_tool_metadata" = some (toolMeta ⟨"t1", "API", "Tool", "", none, none, none⟩ 42) ∧
    getKey [("result", Value.int 7),
        ("_tool_metadata", toolMeta ⟨"t1", "API", "Tool", "", none, none, none⟩ 42)]
      "result" = some (Value.int 7) := by
  have h := c9_result_metadata (fun _ => .ret (.int 7))
    ⟨"t1", "API", "Tool", "", none, none, none⟩ (some []) 42
    [("result", Value.int 7),
      ("_tool_metadata", toolMeta ⟨"t1", "API", "Tool", "", none, none, none⟩ 42)]
    rfl
  exact ⟨h.1, h.2.2 (.int 7) rfl rfl⟩

/-! ## C1: the tool-type allow-list (corrected) -/

/-- Counterexample for C1 as stated: a tool of type `EMAIL` does not pass
the allow-list check — `execute_tool` raises `ToolSecurityError` even though
an EMAIL executor is registered, because module-level `ALLOWED_TOOL_TYPES`
only holds API, RSS, DATABASE and TELEGRAM. -/
theorem c1_email_counterexample :
    execute_tool (fun _ => .ret (.obj []))
      ⟨"t1", "EMAIL", "Email Tool", "", none, none, none⟩ (some []) 0
      = .error .toolSecurity := rfl

/-- C1 (amended): the dispatcher's allow-list is `{API, RSS, DATABASE,
TELEGRAM}` — for every parameter map and executor behaviour, a tool of type
`SHELL` raises `ToolSecurityError`, and so do tools of type `EMAIL` or
`SCHEDULING` (their registered executors are unreachable through
`execute_tool`); a tool whose type is in the allow-list never fails the
allow-list check (with a security-silent executor no `ToolSecurityError`
arises at all). -/
theorem c1_tool_allowlist (execb : List (String × Value) → ExecOutcome)
    (t : Tool) (params : Option (List (String × Value))) (now : Int) :
    (t.type = "SHELL" →
      execute_tool execb t params now = .error .toolSecurity) ∧
    (t.type = "EMAIL" →
      execute_tool execb t params now = .error .toolSecurity) ∧
    (t.type = "SCHEDULING" →
      execute_tool execb t params now = .error .toolSecurity) ∧
    (t.type ∈ ALLOWED_TOOL_TYPES → ∀ v,
      execute_tool (fun _ => .ret v) t params now ≠ .error .toolSecurity) := by
  refine ⟨?_, ?_, ?_, ?_⟩
  · intro ht
    unfold execute_tool
    rw [if_pos (by simp [ALLOWED_TOOL_TYPES, ht])]
  · intro ht
    unfold execute_tool
    rw [if_pos (by simp [ALLOWED_TOOL_TYPES, ht])]
  · intro ht
    unfold execute_tool
    rw [if_pos (by simp [ALLOWED_TOOL_TYPES, ht])]
  · intro ht v
    unfold execute_tool
    rw [if_neg (by simp [ht])]
    split
    · simp
    · split
      · simp
      · split
        · simp
        · split
          · simp
          · simp

/-- Witness for C1 (amended): a SHELL tool and an EMAIL tool are rejected as
security errors; an API tool is not rejected by the allow-list. -/
theorem c1_tool_allowlist_witness :
    execute_tool (fun _ => .ret (.int 1))
      ⟨"sh", "SHELL", "Shell", "", none, none, none⟩ none 0
      = .error .toolSecurity ∧
    execute_tool (fun _ => .ret (.int 1))
      ⟨"em", "EMAIL", "Mail", "", none, none, none⟩ none 0
      = .error .toolSecurity ∧
    execute_tool (fun _ => .ret (.int 1))
      ⟨"ap", "API", "Api", "", none, none, none⟩ none 0
      ≠ .error .toolSecurity := by
  refine ⟨?_, ?_, ?_⟩
  · exact (c1_tool_allowlist (fun _ => .ret (.int 1))
      ⟨"sh", "SHELL", "Shell", "", none, none, none⟩ none 0).1 rfl
  · exact (c1_tool_allowlist (fun _ => .ret (.int 1))
      ⟨"em", "EMAIL", "Mail", "", none, none, none⟩ none 0).2.1 rfl
  · exact (c1_tool_allowlist (fun _ => .ret (.int 1))
      ⟨"ap", "API", "Api", "", none, none, none⟩ none 0).2.2.2 (by decide) (.int 1)

/-! ## C2: retry behaviour of tool_call steps (corrected) -/

/-- One failing attempt of a `tool_call` step: whatever error `execute_tool`
raises, the attempt records exactly one invocation and propagates the
error. -/
theorem toolCallAttempt_error (env : Env) (ag : AgentModel)
    (node : WorkflowNode) (st : EngineState) (i : Nat) (tid : String)
    (tool : Tool) (e : Err)
    (h1 : node.toolId = some tid) (h2 : tid ≠ "")
    (h3 : ag.tools.find? (fun t => t.toolId = tid) = some tool)
    (he : execute_tool (env.toolRun i tool) tool
      (some (resolveParams st.context (node.params.getD []))) env.now
      = .error e) :
    toolCallAttempt env ag node st i = (.error e,
      { st with toolCallLog := st.toolCallLog
          ++ [resolveParams st.context (node.params.getD [])] }) := by
  simp only [toolCallAttempt, h1, h2, h3, he, if_neg h2, if_false]

/-- Test fixture: collaborators that always succeed benignly. -/
def envTest : Env :=
  ⟨fun _ _ _ => .error .generic, fun _ _ _ => .ret (.int 1),
    fun _ => .ok (), 0⟩

/-- Test fixture: a tool whose type is outside the allow-list. -/
def shellTool : Tool := ⟨"sh", "SHELL", "Shell", "", none, none, none⟩

/-- Test fixture: a `tool_call` step invoking the SHELL tool. -/
def shellNode : WorkflowNode :=
  { nodeId := "1", type := "tool_call", toolId := some "sh",
    params := some [] }

/-- Test fixture: an agent holding the SHELL tool and a workflow with the
single SHELL step. -/
def agShell : AgentModel :=
  { agentId := "a", tools := [shellTool],
    workflows := [⟨"w", "", "", [shellNode]⟩] }

/-- Counterexample for C2 as stated: a `tool_call` step whose `execute_tool`
invocation raises `ToolSecurityError` does not fail fast — under the retry
decorator `execute_tool` is invoked three times (not once) before the error
propagates. -/
theorem c2_security_retried_counterexample :
    (execute_tool_call_node envTest agShell shellNode (initState [])).1
      = .error .toolSecurity ∧
    (execute_tool_call_node envTest agShell shellNode
      (initState [])).2.toolCallLog.length = 3 := ⟨rfl, rfl⟩

/-- C2 (amended): the retry decorator wrapped around `_execute_tool_call_node`
catches every exception, so `ToolValidationError` and `ToolSecurityError`
from `executeTool` are retried exactly like `ToolExecutionError`: for every
error kind that `execute_tool` deterministically raises, the step invokes
`execute_tool` exactly `max_retries = 3` times and then propagates that
error. -/
theorem c2_all_errors_retried (env : Env) (ag : AgentModel)
    (node : WorkflowNode) (st : EngineState) (tid : String) (tool : Tool)
    (e : Err)
    (h1 : node.toolId = some tid) (h2 : tid ≠ "")
    (h3 : ag.tools.find? (fun t => t.toolId = tid) = some tool)
    (he : ∀ i, execute_tool (env.toolRun i tool) tool
      (some (resolveParams st.context (node.params.getD []))) env.now
      = .error e) :
    execute_tool_call_node env ag node st = (.error e,
      { st with toolCallLog := st.toolCallLog
          ++ [resolveParams st.context (node.params.getD []),
              resolveParams st.context (node.params.getD []),
              resolveParams st.context (node.params.getD [])] }) := by
  have ha0 := toolCallAttempt_error env ag node st 0 tid tool e h1 h2 h3 (he 0)
  have ha1 := toolCallAttempt_error env ag node
    { st with toolCallLog := st.toolCallLog
        ++ [resolveParams st.context (node.params.getD [])] }
    1 tid tool e h1 h2 h3 (he 1)
  have ha2 := toolCallAttempt_error env ag node
    { st with toolCallLog := (st.toolCallLog
        ++ [resolveParams st.context (node.params.getD [])])
        ++ [resolveParams st.context (node.params.getD [])] }
    2 tid tool e h1 h2 h3 (he 2)
  simp only [execute_tool_call_node, retryFrom, ha0, ha1, ha2]
  simp [List.append_assoc]

/-- Witness for C2 (amended) at the SHELL fixture: three recorded
invocations, the security error propagated. -/
theorem c2_all_errors_retried_witness :
    execute_tool_call_node envTest agShell shellNode (initState [])
      = (.error .toolSecurity,
        { initState [] with toolCallLog := [[], [], []] }) := by
  have h := c2_all_errors_retried envTest agShell shellNode (initState [])
    "sh" shellTool .toolSecurity rfl (by decide) rfl (fun i => rfl)
  exact h

/-! ## C5: numeric node ordering -/

/-- C5: `run` executes steps in ascending order of `int(nodeId)` — the node
list the loop consumes, `sortNodes`, is sorted by `nodeKey` (the parsed
integer) and is a permutation of the workflow's steps; and when any step has
a non-numeric `nodeId`, `run` fails fast with `WorkflowExecutionError`
before any step executes (the returned state is the untouched initial
state: empty logs, no inserts, no tool calls). -/
theorem c5_node_ordering :
    (∀ ns : List WorkflowNode,
      List.Sorted nodeLe (sortNodes ns) ∧ (sortNodes ns).Perm ns) ∧
    (∀ (env : Env) (ag : AgentModel) (wid : String)
      (ictx : List (String × Value)) (wf : Workflow) (n : WorkflowNode),
      ag.workflows.find? (fun w => w.workflowId = wid) = some wf →
      n ∈ wf.nodes → pyInt n.nodeId = none →
      run env ag wid ictx = (.error .workflowExecution, initState ictx)) := by
  constructor
  · intro ns
    exact ⟨List.sorted_insertionSort nodeLe ns,
      List.perm_insertionSort nodeLe ns⟩
  · intro env ag wid ictx wf n hw hn hbad
    have hall : wf.nodes.all (fun n => (pyInt n.nodeId).isSome) = false := by
      cases hc : wf.nodes.all (fun n => (pyInt n.nodeId).isSome) with
      | false => rfl
      | true =>
        have := List.all_eq_true.mp hc n hn
        simp [hbad] at this
    simp [run, hw, hall]

/-- Test fixture: a workflow step with only an ordering key. -/
def orderNode (i : String) : WorkflowNode :=
  { nodeId := i, type := "conditional_logic", condition := some "x" }

/-- Test fixture: an agent whose workflow has a non-numeric nodeId. -/
def agBadNode : AgentModel :=
  { agentId := "a",
    workflows := [⟨"w", "", "",
      [orderNode "2", { nodeId := "x1", type := "llm_prompt" }]⟩] }

/-- Witness for C5: nodeIds 2, 1, 10 sort as 1, 2, 10 (numeric, not
lexical), and a workflow containing the non-numeric nodeId `x1` fails fast
with nothing executed. -/
theorem c5_node_ordering_witness :
    List.Sorted nodeLe (sortNodes [orderNode "2", orderNode "1", orderNode "10"]) ∧
    (sortNodes [orderNode "2", orderNode "1", orderNode "10"]).map
      (fun n => n.nodeId) = ["1", "2", "10"] ∧
    run envTest agBadNode "w" [] = (.error .workflowExecution, initState []) := by
  refine ⟨(c5_node_ordering.1 _).1, rfl, ?_⟩
  exact c5_node_ordering.2 envTest agBadNode "w" []
    ⟨"w", "", "", [orderNode "2", { nodeId := "x1", type := "llm_prompt" }]⟩
    { nodeId := "x1", type := "llm_prompt" } rfl (by simp) rfl

/-! ## C6: tool_call parameter resolution -/

/-- The claim's description of parameter resolution, entry by entry: a
string value starting with `$` is replaced by the named context variable
when present and omitted when absent; any other value passes through
literally. -/
def resolveSpecEntry (ctx : List (String × Value)) (kv : String × Value) :
    Option (String × Value) :=
  match kv.2 with
  | .str s =>
    if startsWithDollar s then
      (getKey ctx (pyStripDollar s)).map (fun x => (kv.1, x))
    else some kv
  | _ => some kv

/-- The engine's accumulator loop computes exactly the per-entry description
when the parameter keys are distinct. -/
theorem resolveParamsGo_filterMap (ctx : List (String × Value)) :
    ∀ (ps acc : List (String × Value)), (ps.map Prod.fst).Nodup →
      (∀ x ∈ ps.map Prod.fst, x ∉ acc.map Prod.fst) →
      resolveParamsGo ctx acc ps = acc ++ ps.filterMap (resolveSpecEntry ctx) := by
  intro ps
  induction ps with
  | nil => intro acc _ _; simp [resolveParamsGo]
  | cons kv rest ih =>
    intro acc hnd hdisj
    obtain ⟨k, v⟩ := kv
    simp only [List.map_cons, List.nodup_cons] at hnd
    obtain ⟨hknr, hndr⟩ := hnd
    have hkacc : k ∉ acc.map Prod.fst := hdisj k (by simp)
    have hd' : ∀ (w : Value), ∀ x ∈ rest.map Prod.fst,
        x ∉ (acc ++ [(k, w)]).map Prod.fst := by
      intro w x hx
      simp only [List.map_append, List.mem_append, List.map_cons,
        List.map_nil, List.mem_singleton, List.not_mem_nil]
      push_neg
      refine ⟨fun hc => (hdisj x (by simp [hx])) hc, ?_⟩
      rintro ⟨rfl⟩
      exact hknr hx
    cases v with
    | str s =>
      by_cases hd : startsWithDollar s = true
      · cases hg : getKey ctx (pyStripDollar s) with
        | none =>
          have := ih acc hndr (fun x hx => hdisj x (by simp [hx]))
          simp only [resolveParamsGo, hd, hg, if_pos hd]
          simpa [resolveSpecEntry, hd, hg] using this
        | some x =>
          have := ih (acc ++ [(k, x)]) hndr (hd' x)
          simp only [resolveParamsGo, hd, hg, if_pos hd,
            setKey_of_not_mem acc k x hkacc]
          simpa [resolveSpecEntry, hd, hg] using this
      · have := ih (acc ++ [(k, .str s)]) hndr (hd' (.str s))
        simp only [resolveParamsGo, hd, if_neg hd,
          setKey_of_not_mem acc k (.str s) hkacc]
        simpa [resolveSpecEntry, hd] using this
    | null =>
      have := ih (acc ++ [(k, .null)]) hndr (hd' .null)
      simp only [resolveParamsGo, setKey_of_not_mem acc k .null hkacc]
      simpa [resolveSpecEntry] using this
    | bool b =>
      have := ih (acc ++ [(k, .bool b)]) hndr (hd' (.bool b))
      simp only [resolveParamsGo, setKey_of_not_mem acc k (.bool b) hkacc]
      simpa [resolveSpecEntry] using this
    | int n =>
      have := ih (acc ++ [(k, .int n)]) hndr (hd' (.int n))
      simp only [resolveParamsGo, setKey_of_not_mem acc k (.int n) hkacc]
      simpa [resolveSpecEntry] using this
    | list xs =>
      have := ih (acc ++ [(k, .list xs)]) hndr (hd' (.list xs))
      simp only [resolveParamsGo, setKey_of_not_mem acc k (.list xs) hkacc]
      simpa [resolveSpecEntry] using this
    | obj kvs =>
      have := ih (acc ++ [(k, .obj kvs)]) hndr (hd' (.obj kvs))
      simp only [resolveParamsGo, setKey_of_not_mem acc k (.obj kvs) hkacc]
      simpa [resolveSpecEntry] using this
    | other =>
      have := ih (acc ++ [(k, .other)]) hndr (hd' .other)
      simp only [resolveParamsGo, setKey_of_not_mem acc k .other hkacc]
      simpa [resolveSpecEntry] using this

/-- C6: a `tool_call` step invokes the tool with exactly the parameter map
described by the claim — each string value starting with `$` replaced by the
named context variable when present, the key omitted without raising when
absent, and every other value passed through literally. -/
theorem c6_param_resolution (env : Env) (ag : AgentModel)
    (node : WorkflowNode) (st : EngineState) (i : Nat) (tid : String)
    (tool : Tool)
    (h1 : node.toolId = some tid) (h2 : tid ≠ "")
    (h3 : ag.tools.find? (fun t => t.toolId = tid) = some tool)
    (h4 : ((node.params.getD []).map Prod.fst).Nodup) :
    (toolCallAttempt env ag node st i).2.toolCallLog
      = st.toolCallLog
        ++ [(node.params.getD []).filterMap (resolveSpecEntry st.context)] := by
  have hrp : resolveParams st.context (node.params.getD [])
      = (node.params.getD []).filterMap (resolveSpecEntry st.context) := by
    simpa using resolveParamsGo_filterMap st.context (node.params.getD [])
      [] h4 (by simp)
  simp only [toolCallAttempt, h1, h3, if_neg h2]
  cases hE : execute_tool (env.toolRun i tool) tool
      (some (resolveParams st.context (node.params.getD []))) env.now with
  | error e => simp [hE, hrp]
  | ok r =>
    cases hov : node.output_variable with
    | none => simp [hE, hov, hrp]
    | some ov => by_cases hov0 : ov = "" <;> simp [hE, hov, hov0, hrp]

/-- Test fixture: an agent with one API tool for resolution tests. -/
def agQuery : AgentModel :=
  { agentId := "a", tools := [⟨"t", "API", "T", "", none, none, none⟩] }

/-- Test fixture: a `tool_call` step with `params = {q: $search_term}`. -/
def queryNode : WorkflowNode :=
  { nodeId := "1", type := "tool_call", toolId := some "t",
    params := some [("q", .str "$search_term")] }

/-- Witness for C6: with `search_term = cats` in context the tool is invoked
with `{q: cats}`; with an empty context the key `q` is omitted and the call
still happens (no raise). -/
theorem c6_param_resolution_witness :
    (toolCallAttempt envTest agQuery queryNode
      ⟨[("search_term", .str "cats")], [], [], [], []⟩ 0).2.toolCallLog
      = [[("q", .str "cats")]] ∧
    (toolCallAttempt envTest agQuery queryNode (initState []) 0).2.toolCallLog
      = [[]] := by
  constructor
  · exact (c6_param_resolution envTest agQuery queryNode
      ⟨[("search_term", .str "cats")], [], [], [], []⟩ 0 "t"
      ⟨"t", "API", "T", "", none, none, none⟩ rfl (by decide) rfl
      (by decide)).trans (by rfl)
  · exact (c6_param_resolution envTest agQuery queryNode (initState []) 0 "t"
      ⟨"t", "API", "T", "", none, none, none⟩ rfl (by decide) rfl
      (by decide)).trans (by rfl)

/-! ## Run-level helper lemmas -/

/-- Unfolding of `run` once the workflow is resolved and all nodeIds are
numeric. -/
theorem run_unfold (env : Env) (ag : AgentModel) (wid : String)
    (ictx : List (String × Value)) (wf : Workflow)
    (hw : ag.workflows.find? (fun w => w.workflowId = wid) = some wf)
    (hnum : wf.nodes.all (fun n => (pyInt n.nodeId).isSome) = true) :
    run env ag wid ictx =
      match runLoop env ag (sortNodes wf.nodes) (initState ictx) with
      | (.ok _, st) =>
        (.ok (setKey st.context "_execution_summary"
            (summaryValue wid (sortNodes wf.nodes).length st)),
          { st with context := (setKey st.context "_execution_summary"
              (summaryValue wid (sortNodes wf.nodes).length st)) })
      | (.error _, st) => (.error .workflowExecution, st) := by
  simp only [run, hw, hnum, if_true]

/-- A failing node with a non-empty `on_failure` string: the failed entry is
logged and `_handle_failure_action` decides the boolean. -/
theorem execute_node_error_handled (env : Env) (ag : AgentModel)
    (node : WorkflowNode) (st : EngineState) (e : Err) (st' : EngineState)
    (a : String)
    (hb : execNodeDispatch env ag node st = (.error e, st'))
    (hof : node.on_failure = some a) (ha : a ≠ "") :
    execute_node env ag node st
      = (.ok (handle_failure_action a), logStep node "failed" st') := by
  simp only [execute_node, hb, hof, if_neg ha]

/-- A failing node without `on_failure`: the failed entry is logged and the
error is re-raised as `WorkflowStepError`. -/
theorem execute_node_error_reraise (env : Env) (ag : AgentModel)
    (node : WorkflowNode) (st : EngineState) (e : Err) (st' : EngineState)
    (hb : execNodeDispatch env ag node st = (.error e, st'))
    (hof : node.on_failure = none) :
    execute_node env ag node st
      = (.error (.workflowStep node.nodeId), logStep node "failed" st') := by
  simp only [execute_node, hb, hof]

/-- When the first sorted step fails and its `on_failure` is a non-empty
string other than `continue`, the run halts gracefully after that step:
`run` swallows the error, skips the remaining steps and returns the context
built so far extended with `_execution_summary`. -/
theorem run_graceful_stop (env : Env) (ag : AgentModel) (wid : String)
    (ictx : List (String × Value)) (wf : Workflow) (node : WorkflowNode)
    (rest : List WorkflowNode) (e : Err) (st' : EngineState) (a : String)
    (hw : ag.workflows.find? (fun w => w.workflowId = wid) = some wf)
    (hnum : wf.nodes.all (fun n => (pyInt n.nodeId).isSome) = true)
    (hs : sortNodes wf.nodes = node :: rest)
    (hb : execNodeDispatch env ag node (initState ictx) = (.error e, st'))
    (hof : node.on_failure = some a) (ha : a ≠ "") (hac : a ≠ "continue") :
    run env ag wid ictx =
      (.ok (setKey (logStep node "failed" st').context "_execution_summary"
          (summaryValue wid (node :: rest).length
            (logStep node "failed" st'))),
        { logStep node "failed" st' with
          context := (setKey (logStep node "failed" st').context
            "_execution_summary"
            (summaryValue wid (node :: rest).length
              (logStep node "failed" st'))) }) := by
  have hen := execute_node_error_handled env ag node (initState ictx) e st'
    a hb hof ha
  have hfa : handle_failure_action a = false := by
    simp [handle_failure_action, hac]
  rw [run_unfold env ag wid ictx wf hw hnum, hs]
  simp only [runLoop, hen, hfa]

/-! ## C3: on_failure = retry is a graceful stop, not a re-raise (corrected) -/

/-- Test fixture: a data_store step over a missing variable that declares
`on_failure = retry` (and the default `continue_on_error = false`). -/
def retryFailNode : WorkflowNode :=
  { nodeId := "1", type := "data_store", action := some "append",
    data := some "$missing", on_failure := some "retry" }

/-- Test fixture: an agent whose workflow holds only the retry-step. -/
def agRetry : AgentModel :=
  { agentId := "a", workflows := [⟨"w", "", "", [retryFailNode]⟩] }

/-- The run summary of a one-step workflow whose single step failed. -/
def failedRunSummary (wid stepType : String) : Value :=
  .obj [("workflow_id", .str wid), ("total_steps", .int 1),
    ("failed_steps", .int 1),
    ("execution_log", .list [.obj [("node_id", .str "1"),
      ("step_type", .str stepType), ("status", .str "failed")]])]

/-- Counterexample for C3 as stated: a raising step with
`on_failure = retry` and `continue_on_error = false` does not make `run`
raise `WorkflowExecutionError` — the run completes and returns the context
built so far. -/
theorem c3_retry_counterexample :
    (run envTest agRetry "w" []).1
      = .ok [("_execution_summary", failedRunSummary "w" "data_store")] := by
  rfl

/-- C3 (amended): for every step that raises during execution and declares
`on_failure = retry`, the outcome is the same graceful halt as
`on_failure = stop`, not a re-raise: the error is swallowed, no later step
executes, and `run` returns the context built so far extended with
`_execution_summary`. -/
theorem c3_retry_graceful_stop (env : Env) (ag : AgentModel) (wid : String)
    (ictx : List (String × Value)) (wf : Workflow) (node : WorkflowNode)
    (rest : List WorkflowNode) (e : Err) (st' : EngineState)
    (hw : ag.workflows.find? (fun w => w.workflowId = wid) = some wf)
    (hnum : wf.nodes.all (fun n => (pyInt n.nodeId).isSome) = true)
    (hs : sortNodes wf.nodes = node :: rest)
    (hb : execNodeDispatch env ag node (initState ictx) = (.error e, st'))
    (hof : node.on_failure = some "retry") :
    run env ag wid ictx =
      (.ok (setKey (logStep node "failed" st').context "_execution_summary"
          (summaryValue wid (node :: rest).length
            (logStep node "failed" st'))),
        { logStep node "failed" st' with
          context := (setKey (logStep node "failed" st').context
            "_execution_summary"
            (summaryValue wid (node :: rest).length
              (logStep node "failed" st'))) }) :=
  run_graceful_stop env ag wid ictx wf node rest e st' "retry" hw hnum hs hb
    hof (by decide) (by decide)

/-- Witness for C3 (amended) at the retry fixture. -/
theorem c3_retry_graceful_stop_witness :
    run envTest agRetry "w" []
      = (.ok [("_execution_summary", failedRunSummary "w" "data_store")],
        ⟨[("_execution_summary", failedRunSummary "w" "data_store")],
          [⟨"1", "data_store", "failed"⟩], [⟨"1", "data_store", "failed"⟩],
          [], []⟩) :=
  (c3_retry_graceful_stop envTest agRetry "w" []
    ⟨"w", "", "", [retryFailNode]⟩ retryFailNode [] (.workflowStep "1")
    (initState []) rfl rfl rfl rfl rfl).trans (by rfl)

/-! ## C10: unrecognized on_failure values are a graceful stop -/

/-- C10: for every step that raises during execution and declares an
`on_failure` value that is none of `continue`, `stop`, `retry` (any
unrecognized non-empty string), `run` does not raise — the error is
swallowed, the loop halts after that step, and `run` returns the context
built so far (extended with `_execution_summary`), exactly the graceful-stop
behaviour of `on_failure = stop`. -/
theorem c10_unknown_failure_action (env : Env) (ag : AgentModel)
    (wid : String) (ictx : List (String × Value)) (wf : Workflow)
    (node : WorkflowNode) (rest : List WorkflowNode) (e : Err)
    (st' : EngineState) (a : String)
    (hw : ag.workflows.find? (fun w => w.workflowId = wid) = some wf)
    (hnum : wf.nodes.all (fun n => (pyInt n.nodeId).isSome) = true)
    (hs : sortNodes wf.nodes = node :: rest)
    (hb : execNodeDispatch env ag node (initState ictx) = (.error e, st'))
    (hof : node.on_failure = some a)
    (h1 : a ≠ "continue") (h2 : a ≠ "stop") (h3 : a ≠ "retry")
    (h4 : a ≠ "") :
    run env ag wid ictx =
      (.ok (setKey (logStep node "failed" st').context "_execution_summary"
          (summaryValue wid (node :: rest).length
            (logStep node "failed" st'))),
        { logStep node "failed" st' with
          context := (setKey (logStep node "failed" st').context
            "_execution_summary"
            (summaryValue wid (node :: rest).length
              (logStep node "failed" st'))) }) :=
  run_graceful_stop env ag wid ictx wf node rest e st' a hw hnum hs hb hof
    h4 h1

/-- Test fixture: the retry-fixture step with an unrecognized failure
action. -/
def panicNode : WorkflowNode :=
  { nodeId := "1", type := "data_store", action := some "append",
    data := some "$missing", on_failure := some "panic" }

/-- Test fixture: an agent whose workflow holds only the panic-step. -/
def agPanic : AgentModel :=
  { agentId := "a", workflows := [⟨"w", "", "", [panicNode]⟩] }

/-- Witness for C10 at a step declaring `on_failure = panic`. -/
theorem c10_unknown_failure_action_witness :
    run envTest agPanic "w" []
      = (.ok [("_execution_summary", failedRunSummary "w" "data_store")],
        ⟨[("_execution_summary", failedRunSummary "w" "data_store")],
          [⟨"1", "data_store", "failed"⟩], [⟨"1", "data_store", "failed"⟩],
          [], []⟩) :=
  (c10_unknown_failure_action envTest agPanic "w" []
    ⟨"w", "", "", [panicNode]⟩ panicNode [] (.workflowStep "1")
    (initState []) "panic" rfl rfl rfl rfl rfl (by decide) (by decide)
    (by decide) (by decide)).trans (by rfl)

/-! ## C4: scenario A — one insert, context gains only the summary (corrected) -/

/-- Test fixture: the scenario A data_store step. -/
def noteNode : WorkflowNode :=
  { nodeId := "1", type := "data_store", action := some "append",
    data := some "$note", collection := some "notes" }

/-- Test fixture: an agent whose workflow holds only the scenario A step. -/
def agNote : AgentModel :=
  { agentId := "a", workflows := [⟨"w1", "", "", [noteNode]⟩] }

/-- Test fixture: the scenario A initial context. -/
def noteCtx : List (String × Value) := [("note", .obj [("title", .str "hi")])]

/-- The run summary of the successful one-step scenario A run. -/
def noteSummary : Value :=
  .obj [("workflow_id", .str "w1"), ("total_steps", .int 1),
    ("failed_steps", .int 0),
    ("execution_log", .list [.obj [("node_id", .str "1"),
      ("step_type", .str "data_store"), ("status", .str "success")]])]

/-- Counterexample for C4 as stated: scenario A inserts exactly one
document, but the final context is not the initial context — `run` appends
an `_execution_summary` key that the initial context did not contain. -/
theorem c4_summary_key_counterexample :
    (run envTest agNote "w1" noteCtx).2.inserted
      = [.obj [("title", .str "hi")]] ∧
    (run envTest agNote "w1" noteCtx).1
      = .ok (noteCtx ++ [("_execution_summary", noteSummary)]) ∧
    getKey noteCtx "_execution_summary" = none := by
  refine ⟨rfl, by rfl, rfl⟩

/-- C4 (amended): for scenario A — workflow
`[{nodeId: 1, type: data_store, action: append, data: $note,
collection: notes}]` with context `{note: {title: hi}}` — exactly one
document (the resolved `note` value) is inserted into the agent's user-data
collection, and the final context equals the initial context with exactly
one added key, `_execution_summary`, and no other keys added or changed. -/
theorem c4_scenario_a :
    run envTest agNote "w1" noteCtx
      = (.ok (noteCtx ++ [("_execution_summary", noteSummary)]),
        ⟨noteCtx ++ [("_execution_summary", noteSummary)],
          [⟨"1", "data_store", "success"⟩], [],
          [.obj [("title", .str "hi")]], []⟩) := by
  rfl

/-! ## C7: failure abort and failure continue -/

/-- C7: when the first sorted step fails, with no `on_failure` declared:
if `continue_on_error` is not true, `run` raises `WorkflowExecutionError`
and no subsequent step executes (the final state carries only the failing
step's failed log entry, independently of the remaining steps); if
`continue_on_error = true`, the step contributes exactly one log entry —
the failed one, duplicated into `failedSteps`, with no success entry — the
loop proceeds to the remaining steps, and whenever those complete the run
completes successfully. -/
theorem c7_failure_abort_continue (env : Env) (ag : AgentModel)
    (wid : String) (ictx : List (String × Value)) (wf : Workflow)
    (node : WorkflowNode) (rest : List WorkflowNode) (e : Err)
    (st' : EngineState)
    (hw : ag.workflows.find? (fun w => w.workflowId = wid) = some wf)
    (hnum : wf.nodes.all (fun n => (pyInt n.nodeId).isSome) = true)
    (hs : sortNodes wf.nodes = node :: rest)
    (hb : execNodeDispatch env ag node (initState ictx) = (.error e, st'))
    (hof : node.on_failure = none) :
    (node.continue_on_error ≠ some true →
      run env ag wid ictx
        = (.error .workflowExecution, logStep node "failed" st')) ∧
    (node.continue_on_error = some true →
      (logStep node "failed" st').executionLog
          = st'.executionLog ++ [failEntry node] ∧
        failEntry node ∈ (logStep node "failed" st').failedSteps ∧
        runLoop env ag (node :: rest) (initState ictx)
          = runLoop env ag rest (logStep node "failed" st') ∧
        (∀ (u : Unit) (stF : EngineState),
          runLoop env ag rest (logStep node "failed" st') = (.ok u, stF) →
          (run env ag wid ictx).1
            = .ok (setKey stF.context "_execution_summary"
                (summaryValue wid (node :: rest).length stF)))) := by
  have hen := execute_node_error_reraise env ag node (initState ictx) e st'
    hb hof
  constructor
  · intro hc
    rw [run_unfold env ag wid ictx wf hw hnum, hs]
    simp only [runLoop, hen, if_neg hc]
  · intro hc
    refine ⟨by simp [logStep, failEntry], by simp [logStep, failEntry],
      ?_, ?_⟩
    · simp only [runLoop, hen, if_pos hc]
    · intro u stF hloop
      rw [run_unfold env ag wid ictx wf hw hnum, hs]
      simp only [runLoop, hen, if_pos hc, hloop]

/-- Test fixture: a failing data_store step with the default
`continue_on_error = false` and no `on_failure`. -/
def abortNode : WorkflowNode :=
  { nodeId := "1", type := "data_store", action := some "append",
    data := some "$missing" }

/-- Test fixture: agent for the abort half of C7. -/
def agAbort : AgentModel :=
  { agentId := "a", workflows := [⟨"w", "", "", [abortNode]⟩] }

/-- Test fixture: the failing step with `continue_on_error = true`. -/
def contErrNode : WorkflowNode :=
  { nodeId := "1", type := "data_store", action := some "append",
    data := some "$missing", continue_on_error := some true }

/-- Test fixture: agent for the continue half of C7. -/
def agContErr : AgentModel :=
  { agentId := "a", workflows := [⟨"w", "", "", [contErrNode]⟩] }

/-- Witness for C7: the abort fixture raises `WorkflowExecutionError` with
only the failing step logged; the continue fixture completes with the
failed step recorded in `failedSteps` and no success entry for it. -/
theorem c7_failure_abort_continue_witness :
    run envTest agAbort "w" []
      = (.error .workflowExecution,
        ⟨[], [⟨"1", "data_store", "failed"⟩], [⟨"1", "data_store", "failed"⟩],
          [], []⟩) ∧
    failEntry contErrNode
      ∈ (logStep contErrNode "failed" (initState [])).failedSteps ∧
    (run envTest agContErr "w" []).1
      = .ok [("_execution_summary", failedRunSummary "w" "data_store")] := by
  have ha := c7_failure_abort_continue envTest agAbort "w" []
    ⟨"w", "", "", [abortNode]⟩ abortNode [] (.workflowStep "1")
    (initState []) rfl rfl rfl rfl rfl
  have hb := c7_failure_abort_continue envTest agContErr "w" []
    ⟨"w", "", "", [contErrNode]⟩ contErrNode [] (.workflowStep "1")
    (initState []) rfl rfl rfl rfl rfl
  refine ⟨(ha.1 (by decide)).trans (by rfl), (hb.2 rfl).2.1, ?_⟩
  exact ((hb.2 rfl).2.2.2 () (logStep contErrNode "failed" (initState []))
    rfl).trans (by rfl)

end AgentSpec
